import Mathlib

/-!
Shallow embedding of the MemAgent memory consolidation and decay engine
(`MemAgent/memory/base.py` and `MemAgent/memory/main.py`).

Modelling conventions:
* Numbers that are Python floats (importance, strength, timestamps, thresholds)
  are modelled as rationals; `access_count` (a SQLite INTEGER) as an integer.
* The ChromaDB collection is the `records` list; the SQLite `memory_metadata`
  table is an association list keyed by `memory_id` (its PRIMARY KEY); the
  SQLite `memory_history` table is the `history` list.
* History rows carry their SQLite rowid (`clock` holds the next rowid to
  assign; rowids strictly increase in insertion order).  The row's
  `DATETIME DEFAULT CURRENT_TIMESTAMP` column is a one-second-resolution
  wall-clock stamp of the rowid, kept abstract as a function `τ` of the
  rowid; rows inserted within the same second tie on it, so the
  `ORDER BY timestamp ASC` readback is modelled as a relation over the
  possible result orders, not as a function.  Wall-clock readings
  (`datetime.now()`) used for metadata timestamps and for strength recency
  are passed in explicitly as a `now` parameter.
* External capabilities (uuid4 id generation, the LLM importance grader, the
  LLM decision) are oracles passed in as explicit arguments; the embedding
  covers everything the code does with their results.
-/

namespace MemAgent

/-- A row of the SQLite `memory_metadata` table:
`(importance REAL, access_count INTEGER, last_accessed_timestamp DATETIME)`. -/
structure MetaEntry where
  importance : ℚ
  access_count : ℤ
  last_accessed : ℚ
deriving Repr, DecidableEq

/-- A row of the SQLite `memory_history` table, carrying its rowid (the
generated uuid primary key is irrelevant to all observable behaviour and is
omitted; the `DATETIME DEFAULT CURRENT_TIMESTAMP` column is a function of
the rowid — see the SQL readback section). -/
structure HistoryEntry where
  memory_id : String
  action : String
  data : String
  rowid : ℕ
deriving Repr, DecidableEq

/-- A document held in the ChromaDB collection together with its scope
metadata (the embedding vector is owned by the external store and does not
influence any of the behaviour specified here). -/
structure MemoryRecord where
  id : String
  document : String
  user_id : Option String
  agent_id : Option String
  run_id : Option String
deriving Repr, DecidableEq

/-- The observable state of a `Memory` instance: the ChromaDB collection,
the two SQLite tables, and the next `memory_history` rowid (`clock`;
SQLite assigns rowids in strictly increasing order). -/
structure State where
  records : List MemoryRecord
  metadata : List (String × MetaEntry)
  history : List HistoryEntry
  clock : ℕ
deriving Repr, DecidableEq

/-- The state of a freshly constructed `Memory(db_path=":memory:")`. -/
def emptyState : State := ⟨[], [], [], 0⟩

/-! ### `BaseMemory._parse_importance`

`re.search(r"\d+\.?\d*", text)` finds the leftmost match: skip to the first
digit, take a maximal digit run, optionally a dot, then a maximal digit run;
`float()` of that match.  No match returns `0.0`. -/

/-- Value of a digit run read as a decimal natural number. -/
def digitsToNat (ds : List Char) : ℕ :=
  ds.foldl (fun acc c => 10 * acc + (c.toNat - 48)) 0

/-- Value of the regex match `\d+\.?\d*` starting at `cs`, whose head is a
digit: integer part, then an optional dot and fractional part, as `float()`
reads it (`float("12.") = 12.0`). -/
def matchValue (cs : List Char) : ℚ :=
  match cs.dropWhile Char.isDigit with
  | '.' :: rest2 =>
      (digitsToNat (cs.takeWhile Char.isDigit) : ℚ)
        + (digitsToNat (rest2.takeWhile Char.isDigit) : ℚ)
          / 10 ^ (rest2.takeWhile Char.isDigit).length
  | _ => (digitsToNat (cs.takeWhile Char.isDigit) : ℚ)

/-- `BaseMemory._parse_importance(text)`: the leftmost `\d+\.?\d*` match as a
number, or `0.0` when `text` has no digit. -/
def _parse_importance (text : String) : ℚ :=
  match text.data.dropWhile (fun c => ¬ c.isDigit) with
  | [] => 0
  | cs => matchValue cs

/-! ### SQLite metadata table -/

/-- Lookup of the `memory_metadata` row for `memory_id`
(`SELECT ... FROM memory_metadata WHERE memory_id = ?`; the column is the
PRIMARY KEY, so at most one row matches). -/
def getMeta (s : State) (memory_id : String) : Option MetaEntry :=
  (s.metadata.find? (fun p => p.1 = memory_id)).map (fun p => p.2)

/-- `BaseMemory._update_metadata(memory_id, importance, access_count)`:
when `importance` is given, `INSERT OR REPLACE` a full row with
`access_count = 1` and `last_accessed_timestamp = now`; when `access_count`
is given, `UPDATE` the existing row's `access_count` and
`last_accessed_timestamp` (a no-op when no row matches). -/
def _update_metadata (s : State) (memory_id : String)
    (importance : Option ℚ) (access_count : Option ℤ) (now : ℚ) : State :=
  let s1 :=
    match importance with
    | some imp =>
        { s with metadata :=
            s.metadata.filter (fun p => p.1 ≠ memory_id)
              ++ [(memory_id, ⟨imp, 1, now⟩)] }
    | none => s
  match access_count with
  | some ac =>
      { s1 with metadata :=
          s1.metadata.map (fun p =>
            if p.1 = memory_id then (p.1, ⟨p.2.importance, ac, now⟩) else p) }
  | none => s1

/-! ### SQLite history table -/

/-- `BaseMemory._log_history(memory_id, action, data)`: insert one row into
`memory_history`; the row receives the next rowid. -/
def _log_history (s : State) (memory_id action data : String) : State :=
  { s with
      history := s.history ++ [⟨memory_id, action, data, s.clock⟩],
      clock := s.clock + 1 }

/-! ### SQL history readback

`BaseMemory.history(memory_id)` runs
`SELECT action, data, timestamp FROM memory_history WHERE memory_id = ?
ORDER BY timestamp ASC`.  The `timestamp` column is
`DATETIME DEFAULT CURRENT_TIMESTAMP`: a wall-clock reading with one-second
resolution, non-decreasing in insertion order but not strictly increasing —
rows inserted within the same second carry equal timestamps, and SQLite
leaves the relative order of rows tied on the `ORDER BY` key unspecified.
The embedding therefore keeps the stamping abstract — `τ rowid` is the
timestamp value of the row with that rowid, for an arbitrary (in reality
monotone, second-resolution) `τ : ℕ → ℕ` — and models the query as a
relation: the lists the query may return are exactly the orderings of the
matching rows that are non-decreasing in the timestamp key. -/

/-- The possible result sets of `BaseMemory.history(memory_id)` under
timestamp column `τ ∘ rowid`: any permutation of the id's rows that is
sorted (non-strictly) by the timestamp key — rows tied on the key may come
back in either order.  The tuples the Python returns are the
`(action, data, τ rowid)` projections of such a list. -/
def sqlHistoryReadback (τ : ℕ → ℕ) (s : State) (memory_id : String)
    (out : List HistoryEntry) : Prop :=
  List.Perm out (s.history.filter (fun e => e.memory_id = memory_id))
    ∧ out.Pairwise (fun e f => τ e.rowid ≤ τ f.rowid)

/-! ### ChromaDB collection operations -/

/-- `BaseMemory._add_memory_to_collection`: add a document under a fresh id
(the uuid4 value is the `memory_id` oracle argument) with its scope
metadata, and return the id. -/
def _add_memory_to_collection (s : State) (memory_id data : String)
    (user_id agent_id run_id : Option String) : State :=
  { s with records := s.records ++ [⟨memory_id, data, user_id, agent_id, run_id⟩] }

/-- `BaseMemory._update_memory_in_collection`: `collection.update` replaces
the document of the record with matching id; on a nonexistent id ChromaDB
warns and changes nothing. -/
def _update_memory_in_collection (s : State) (memory_id data : String) : State :=
  { s with records :=
      s.records.map (fun r => if r.id = memory_id then { r with document := data } else r) }

/-- `BaseMemory._delete_memory_from_collection`: `collection.delete(ids=[id])`. -/
def _delete_memory_from_collection (s : State) (memory_id : String) : State :=
  { s with records := s.records.filter (fun r => r.id ≠ memory_id) }

/-- `BaseMemory._get_memory_from_collection`: `collection.get(ids=[id])`,
`None` when absent. -/
def _get_memory_from_collection (s : State) (memory_id : String) : Option MemoryRecord :=
  s.records.find? (fun r => r.id = memory_id)

/-- Scope-filter test used by `_get_all_memories_from_collection`: a `where`
field is added only for a non-`None` (and non-empty, which we conflate with
`None` as Python truthiness does) filter value. -/
def scopeMatch (filt : Option String) (val : Option String) : Bool :=
  match filt with
  | none => true
  | some v => val = some v

/-- `BaseMemory._get_all_memories_from_collection(user_id, agent_id, run_id)`:
`collection.get` with a conjunctive `where` clause built from the filters
that are present; all records when none is. -/
def _get_all_memories_from_collection (s : State)
    (user_id agent_id run_id : Option String) : List MemoryRecord :=
  s.records.filter (fun r =>
    scopeMatch user_id r.user_id && scopeMatch agent_id r.agent_id
      && scopeMatch run_id r.run_id)

/-! ### Strength scoring and the decay sweep (`BaseMemory`) -/

/-- The spec's strength formula, written from the spec's words:
`importance * (1 + access_count) * (1 / (1 + recency_hours))`. -/
def strengthFormula (importance : ℚ) (access_count : ℤ) (recency_hours : ℚ) : ℚ :=
  importance * (1 + (access_count : ℚ)) * (1 / (1 + recency_hours))

/-- `BaseMemory.calculate_strength(memory_id)`: fetch the metadata row; when
present, `importance * (1 + access_count) * (1 / (1 + recency))` with
`recency` the elapsed hours since `last_accessed_timestamp` (timestamps are
kept in hours here, so the `/3600` seconds-to-hours conversion is the
identity on the model's time unit); `0.0` when no row exists. -/
def calculate_strength (s : State) (memory_id : String) (now : ℚ) : ℚ :=
  match getMeta s memory_id with
  | some e =>
      let recency := now - e.last_accessed
      e.importance * (1 + (e.access_count : ℚ)) * (1 / (1 + recency))
  | none => 0

/-- The loop body of `BaseMemory.decay_memories`: walk the snapshot of all
memories; for each one with strength strictly below the threshold, delete it
from the collection and log a DECAY history entry with empty payload. -/
def decayLoop (s : State) (ms : List MemoryRecord) (threshold now : ℚ) : State :=
  match ms with
  | [] => s
  | m :: rest =>
      if calculate_strength s m.id now < threshold then
        decayLoop (_log_history (_delete_memory_from_collection s m.id) m.id "DECAY" "")
          rest threshold now
      else
        decayLoop s rest threshold now

/-- `BaseMemory.decay_memories(threshold)`: snapshot every memory with an
unscoped `_get_all_memories_from_collection()` call, then run the sweep. -/
def decay_memories (s : State) (threshold now : ℚ) : State :=
  decayLoop s (_get_all_memories_from_collection s none none none) threshold now

/-! ### `Memory` operations (`MemAgent/memory/main.py`) -/

/-- `Memory._add_memory(data, user_id, agent_id, run_id)`: add to the
collection under the fresh id, log ADD with the content as payload, ask the
LLM for an importance grade (`importanceText` oracle), parse it, and upsert
the metadata entry. -/
def _add_memory (s : State) (data : String)
    (user_id agent_id run_id : Option String)
    (freshId importanceText : String) (now : ℚ) : State :=
  let s1 := _add_memory_to_collection s freshId data user_id agent_id run_id
  let s2 := _log_history s1 freshId "ADD" data
  _update_metadata s2 freshId (some (_parse_importance importanceText)) none now

/-- `Memory.update(memory_id, data)`: replace the document in the collection
and log UPDATE with the new content as payload (unconditionally — there is
no liveness check). -/
def update (s : State) (memory_id data : String) : State :=
  _log_history (_update_memory_in_collection s memory_id data) memory_id "UPDATE" data

/-- `Memory.delete(memory_id)`: delete from the collection and log DELETE
with empty payload (unconditionally — there is no liveness check). -/
def delete (s : State) (memory_id : String) : State :=
  _log_history (_delete_memory_from_collection s memory_id) memory_id "DELETE" ""

/-- `Memory.get(memory_id)`: fetch the record; when it exists, read the
metadata row's `access_count` and, only when that row exists, bump it by one
through `_update_metadata`.  Returns the record (or `None`) and the
resulting state. -/
def get (s : State) (memory_id : String) (now : ℚ) : Option MemoryRecord × State :=
  match _get_memory_from_collection s memory_id with
  | some result =>
      match getMeta s memory_id with
      | some row => (some result, _update_metadata s memory_id none (some (row.access_count + 1)) now)
      | none => (some result, s)
  | none => (none, s)

/-! ### The consolidation decider (`Memory._infer_and_add`)

The fact-extraction and semantic-search steps only assemble the prompt shown
to the decision LLM and never mutate state; the decision string itself is
the `decision` oracle argument.  The dispatch below is the `if/elif/else`
chain of `_infer_and_add`; the `print` in the fallback branch is returned as
a list of emitted warning lines. -/

/-- Python `str.startswith`. -/
def startsWith (s pre : String) : Bool :=
  pre.data.isPrefixOf s.data

/-- Python `str.split(sep)` on a list of characters: split at every
occurrence of `sep` (so a string with no separator yields one piece). -/
def splitList (sep : Char) : List Char → List (List Char)
  | [] => [[]]
  | c :: rest =>
      if c = sep then [] :: splitList sep rest
      else
        match splitList sep rest with
        | [] => [[c]]
        | h :: t => (c :: h) :: t

/-- Python `decision.split(":")` as strings. -/
def pySplit (sep : Char) (s : String) : List String :=
  (splitList sep s.data).map (fun l => ⟨l⟩)

/-- The fallback branch's `print` line,
`f"LLM made an unrecognised decision: {decision}. Defaulting to ADD."`. -/
def unrecognisedMsg (decision : String) : String :=
  "LLM made an unrecognised decision: " ++ decision ++ ". Defaulting to ADD."

/-- `Memory._infer_and_add(data, user_id, agent_id, run_id)` from the point
where the decision string is in hand: dispatch on it and apply exactly one
mutation path.  Returns the new state and the lines printed. -/
def _infer_and_add (s : State) (data : String)
    (user_id agent_id run_id : Option String)
    (decision : String) (freshId importanceText : String) (now : ℚ) :
    State × List String :=
  if decision = "ADD" then
    (_add_memory s data user_id agent_id run_id freshId importanceText now, [])
  else if startsWith decision "UPDATE:" then
    ((update s ((pySplit ':' decision).getD 1 "") data), [])
  else if startsWith decision "DELETE:" then
    ((delete s ((pySplit ':' decision).getD 1 "")), [])
  else
    (_add_memory s data user_id agent_id run_id freshId importanceText now,
      [unrecognisedMsg decision])

/-! ### Operation sequences for history auditing

The history claims quantify over sequences of mutations applied through the
public API; `Op` ranges over the three mutating operations and `applyOps`
runs such a sequence. -/

/-- One mutating API call, with its external oracles (fresh id, importance
grade, wall clock) made explicit. -/
inductive Op where
  | addOp (data : String) (user_id agent_id run_id : Option String)
      (freshId importanceText : String) (now : ℚ)
  | updateOp (memory_id data : String)
  | deleteOp (memory_id : String)

/-- Run one mutating API call. -/
def applyOp (s : State) : Op → State
  | .addOp data u a r freshId importanceText now =>
      _add_memory s data u a r freshId importanceText now
  | .updateOp memory_id data => update s memory_id data
  | .deleteOp memory_id => delete s memory_id

/-- Run a sequence of mutating API calls in order. -/
def applyOps (s : State) : List Op → State
  | [] => s
  | op :: ops => applyOps (applyOp s op) ops

/-- The record id an operation logs against. -/
def opTarget : Op → String
  | .addOp _ _ _ _ freshId _ _ => freshId
  | .updateOp memory_id _ => memory_id
  | .deleteOp memory_id => memory_id

/-- The history action an operation logs. -/
def opAction : Op → String
  | .addOp _ _ _ _ _ _ _ => "ADD"
  | .updateOp _ _ => "UPDATE"
  | .deleteOp _ => "DELETE"

/-- The history payload an operation logs. -/
def opData : Op → String
  | .addOp data _ _ _ _ _ _ => data
  | .updateOp _ data => data
  | .deleteOp _ => ""

/-- The `(action, payload)` contribution of one operation to one id's audit
trail: one entry when the operation targets the id, none otherwise. -/
def opEntry (memory_id : String) (op : Op) : Option (String × String) :=
  if opTarget op = memory_id then some (opAction op, opData op) else none

/-! ### Helper lemmas -/

/-- An importance upsert (`INSERT OR REPLACE`) makes the metadata row for the
id hold the given importance, `access_count = 1` and `last_accessed = now`. -/
theorem getMeta_upsert_self (s : State) (id : String) (imp now : ℚ) :
    getMeta (_update_metadata s id (some imp) none now) id = some ⟨imp, 1, now⟩ := by
  simp [getMeta, _update_metadata, List.find?_eq_none]

/-- Lookup for a different key is unchanged by the `INSERT OR REPLACE`
rewriting of the association list. -/
theorem find?_upsert_other (l : List (String × MetaEntry)) (id id' : String)
    (e : MetaEntry) (h : id' ≠ id) :
    ((l.filter (fun p => p.1 ≠ id)) ++ [(id, e)]).find? (fun p => p.1 = id')
      = l.find? (fun p => p.1 = id') := by
  induction l with
  | nil => simp [List.find?, Ne.symm h]
  | cons a t ih =>
      by_cases ha1 : a.1 = id
      · have ha2 : ¬ a.1 = id' := by rw [ha1]; exact Ne.symm h
        rw [List.filter_cons, if_neg (by simp [ha1]),
            List.find?_cons_of_neg _ (by simp [ha2])]
        exact ih
      · by_cases ha2 : a.1 = id'
        · rw [List.filter_cons, if_pos (by simp [ha1]), List.cons_append,
              List.find?_cons_of_pos _ (by simp [ha2]),
              List.find?_cons_of_pos _ (by simp [ha2])]
        · rw [List.filter_cons, if_pos (by simp [ha1]), List.cons_append,
              List.find?_cons_of_neg _ (by simp [ha2]),
              List.find?_cons_of_neg _ (by simp [ha2])]
          exact ih

/-- An importance upsert leaves every other id's metadata row unchanged. -/
theorem getMeta_upsert_other (s : State) (id id' : String) (imp now : ℚ)
    (h : id' ≠ id) :
    getMeta (_update_metadata s id (some imp) none now) id' = getMeta s id' := by
  simp only [getMeta, _update_metadata]
  rw [find?_upsert_other s.metadata id id' ⟨imp, 1, now⟩ h]

/-- A SQL `UPDATE ... WHERE memory_id = id` over the association list
rewrites the matched row and is described by `Option.map` on the lookup. -/
theorem find?_key_map_update (l : List (String × MetaEntry)) (id : String)
    (f : MetaEntry → MetaEntry) :
    (l.map (fun p => if p.1 = id then (p.1, f p.2) else p)).find? (fun p => p.1 = id)
      = (l.find? (fun p => p.1 = id)).map (fun p => (p.1, f p.2)) := by
  induction l with
  | nil => rfl
  | cons h t ih =>
      by_cases hh : h.1 = id
      · simp [hh]
      · simp [hh, ih]

/-- An access-count update (`UPDATE memory_metadata SET ...`) rewrites the
matched row's `access_count` and `last_accessed`, keeping its importance. -/
theorem getMeta_bump (s : State) (id : String) (ac : ℤ) (now : ℚ) :
    getMeta (_update_metadata s id none (some ac) now) id
      = (getMeta s id).map (fun e => ⟨e.importance, ac, now⟩) := by
  simp only [getMeta, _update_metadata]
  rw [find?_key_map_update s.metadata id (fun e => ⟨e.importance, ac, now⟩)]
  cases s.metadata.find? fun p => p.1 = id <;> simp

/-- The regex-match value is a sum of non-negative pieces. -/
theorem matchValue_nonneg (cs : List Char) : 0 ≤ matchValue cs := by
  unfold matchValue
  split
  · positivity
  · positivity

/-- `_parse_importance` never returns a negative number. -/
theorem parse_importance_nonneg (text : String) : 0 ≤ _parse_importance text := by
  unfold _parse_importance
  split
  · norm_num
  · exact matchValue_nonneg _

/-- A text without digits has no `\d+\.?\d*` match: `_parse_importance`
falls through to `0.0`. -/
theorem parse_importance_no_digit (text : String)
    (h : ∀ c ∈ text.data, ¬ c.isDigit) :
    _parse_importance text = 0 := by
  unfold _parse_importance
  rw [List.dropWhile_eq_nil_iff.mpr (by simpa using h)]

/-- A leading run of non-digit characters (a minus sign included) is skipped
by the leftmost regex search and does not change the parsed value. -/
theorem parse_importance_nondigit_skip (pre text : String)
    (h : ∀ c ∈ pre.data, ¬ c.isDigit) :
    _parse_importance (pre ++ text) = _parse_importance text := by
  unfold _parse_importance
  rw [String.data_append, List.dropWhile_append_of_pos (by simpa using h)]

/-! ### Claim theorems -/

/-- C1: for every record id with a metadata entry, `calculate_strength`
returns `importance * (1 + access_count) * (1 / (1 + recency_hours))`, the
spec's formula, with `recency_hours` the elapsed time since the entry's
last access (non-negative whenever the last access is no later than `now`);
and for every id with no metadata entry it returns exactly `0`. -/
theorem C1_calculate_strength_formula :
    (∀ (s : State) (id : String) (now : ℚ) (e : MetaEntry),
        getMeta s id = some e →
          calculate_strength s id now
              = strengthFormula e.importance e.access_count (now - e.last_accessed)
            ∧ (e.last_accessed ≤ now → 0 ≤ now - e.last_accessed))
    ∧ (∀ (s : State) (id : String) (now : ℚ),
        getMeta s id = none → calculate_strength s id now = 0) := by
  refine ⟨fun s id now e h => ⟨?_, fun hle => by linarith⟩, fun s id now h => ?_⟩
  · simp [calculate_strength, strengthFormula, h]
  · simp [calculate_strength, h]

/-- Witness for C1: a concrete entry and a concrete empty store. -/
theorem C1_calculate_strength_formula_witness :
    calculate_strength ⟨[], [("a", ⟨2, 3, 1⟩)], [], 0⟩ "a" 5
        = strengthFormula 2 3 (5 - 1)
      ∧ ((0 : ℚ) ≤ 5 - 1)
      ∧ calculate_strength emptyState "a" 5 = 0 := by
  have h1 := C1_calculate_strength_formula.1 ⟨[], [("a", ⟨2, 3, 1⟩)], [], 0⟩
    "a" 5 ⟨2, 3, 1⟩ (by rfl)
  exact ⟨h1.1, h1.2 (by norm_num),
    C1_calculate_strength_formula.2 emptyState "a" 5 (by rfl)⟩

/-- C5 counterexample: with an existing metadata entry for "a" carrying
access_count 7, an importance-only `_update_metadata` (the spec's
`SetImportance`) resets access_count to 1 instead of leaving it at 7. -/
theorem C5_counterexample :
    (getMeta (_update_metadata ⟨[], [("a", ⟨1/2, 7, 0⟩)], [], 0⟩ "a"
        (some (9/10)) none 5) "a").map MetaEntry.access_count = some 1
      ∧ (getMeta (_update_metadata ⟨[], [("a", ⟨1/2, 7, 0⟩)], [], 0⟩ "a"
        (some (9/10)) none 5) "a").map MetaEntry.access_count ≠ some 7 := by
  rw [getMeta_upsert_self]
  exact ⟨rfl, by decide⟩

/-- C5 (amended): setting importance always writes `access_count = 1` and
`last_accessed_at = now`, whether or not a metadata entry already existed;
an existing entry's access_count is not preserved. -/
theorem C5_set_importance_resets_access (s : State) (id : String) (imp now : ℚ) :
    getMeta (_update_metadata s id (some imp) none now) id = some ⟨imp, 1, now⟩ :=
  getMeta_upsert_self s id imp now

/-- C8 counterexample: two entries differing only in access_count (3 vs 5),
with the same importance 0 and the same recency, have equal strength (both
0), so the one with higher access_count is not strictly greater. -/
theorem C8_counterexample :
    calculate_strength ⟨[], [("a", ⟨0, 3, 0⟩), ("b", ⟨0, 5, 0⟩)], [], 0⟩ "b" 2
        = calculate_strength ⟨[], [("a", ⟨0, 3, 0⟩), ("b", ⟨0, 5, 0⟩)], [], 0⟩ "a" 2
      ∧ ¬ (calculate_strength ⟨[], [("a", ⟨0, 3, 0⟩), ("b", ⟨0, 5, 0⟩)], [], 0⟩ "b" 2
            > calculate_strength ⟨[], [("a", ⟨0, 3, 0⟩), ("b", ⟨0, 5, 0⟩)], [], 0⟩ "a" 2) := by
  have hb : calculate_strength ⟨[], [("a", ⟨0, 3, 0⟩), ("b", ⟨0, 5, 0⟩)], [], 0⟩ "b" 2 = 0 := by
    have h : getMeta ⟨[], [("a", ⟨0, 3, 0⟩), ("b", ⟨0, 5, 0⟩)], [], 0⟩ "b" = some ⟨0, 5, 0⟩ := by rfl
    simp [calculate_strength, h]
  have ha : calculate_strength ⟨[], [("a", ⟨0, 3, 0⟩), ("b", ⟨0, 5, 0⟩)], [], 0⟩ "a" 2 = 0 := by
    have h : getMeta ⟨[], [("a", ⟨0, 3, 0⟩), ("b", ⟨0, 5, 0⟩)], [], 0⟩ "a" = some ⟨0, 3, 0⟩ := by rfl
    simp [calculate_strength, h]
  rw [ha, hb]
  exact ⟨rfl, lt_irrefl 0⟩

/-- C8 (amended): for two metadata entries that differ only in access_count,
with the same strictly positive importance and the same non-negative
recency, the entry with the higher access_count has strictly greater
strength. -/
theorem C8_access_monotone (imp last now : ℚ) (ac₁ ac₂ : ℤ)
    (himp : 0 < imp) (hlast : last ≤ now) (hac : ac₁ < ac₂) :
    calculate_strength ⟨[], [("a", ⟨imp, ac₁, last⟩), ("b", ⟨imp, ac₂, last⟩)], [], 0⟩ "a" now
      < calculate_strength ⟨[], [("a", ⟨imp, ac₁, last⟩), ("b", ⟨imp, ac₂, last⟩)], [], 0⟩ "b" now := by
  have hma : getMeta ⟨[], [("a", ⟨imp, ac₁, last⟩), ("b", ⟨imp, ac₂, last⟩)], [], 0⟩ "a"
      = some ⟨imp, ac₁, last⟩ := by rfl
  have hmb : getMeta ⟨[], [("a", ⟨imp, ac₁, last⟩), ("b", ⟨imp, ac₂, last⟩)], [], 0⟩ "b"
      = some ⟨imp, ac₂, last⟩ := by rfl
  simp only [calculate_strength, hma, hmb]
  have hinv : (0 : ℚ) < 1 / (1 + (now - last)) := by
    have : (0 : ℚ) < 1 + (now - last) := by linarith
    positivity
  have hc : (1 : ℚ) + (ac₁ : ℚ) < 1 + (ac₂ : ℚ) := by
    have : (ac₁ : ℚ) < (ac₂ : ℚ) := by exact_mod_cast hac
    linarith
  exact mul_lt_mul_of_pos_right (mul_lt_mul_of_pos_left hc himp) hinv

/-- Witness for C8 (amended) at importance 1, access counts 3 and 5. -/
theorem C8_access_monotone_witness :
    calculate_strength ⟨[], [("a", ⟨1, 3, 0⟩), ("b", ⟨1, 5, 0⟩)], [], 0⟩ "a" 2
      < calculate_strength ⟨[], [("a", ⟨1, 3, 0⟩), ("b", ⟨1, 5, 0⟩)], [], 0⟩ "b" 2 :=
  C8_access_monotone 1 0 2 3 5 (by norm_num) (by norm_num) (by decide)

/-- C10: `_parse_importance` is never negative, parses the first unsigned
number in the text (a leading run of non-digit characters, a minus sign
included, is skipped), returns `0` when the text has no digit at all, and
consequently the metadata entry created by the add path always has
non-negative importance. -/
theorem C10_importance_nonneg :
    (∀ text : String, 0 ≤ _parse_importance text)
    ∧ (∀ text : String, (∀ c ∈ text.data, ¬ c.isDigit) → _parse_importance text = 0)
    ∧ (∀ pre text : String, (∀ c ∈ pre.data, ¬ c.isDigit) →
        _parse_importance (pre ++ text) = _parse_importance text)
    ∧ (∀ (s : State) (data : String) (u a r : Option String)
        (freshId importanceText : String) (now : ℚ) (e : MetaEntry),
        getMeta (_add_memory s data u a r freshId importanceText now) freshId = some e →
          0 ≤ e.importance) := by
  refine ⟨parse_importance_nonneg, parse_importance_no_digit,
    parse_importance_nondigit_skip, ?_⟩
  intro s data u a r freshId importanceText now e h
  simp only [_add_memory, getMeta_upsert_self, Option.some.injEq] at h
  rw [← h]
  exact parse_importance_nonneg importanceText

/-- Witness for C10 at concrete texts and a concrete add. -/
theorem C10_importance_nonneg_witness :
    (0 : ℚ) ≤ _parse_importance "score -0.7"
      ∧ _parse_importance "no score" = 0
      ∧ _parse_importance ("-" ++ "0.7") = _parse_importance "0.7"
      ∧ (0 : ℚ) ≤ MetaEntry.importance ⟨_parse_importance "-0.7", 1, 3⟩ := by
  refine ⟨C10_importance_nonneg.1 "score -0.7",
    C10_importance_nonneg.2.1 "no score" (by decide),
    C10_importance_nonneg.2.2.1 "-" "0.7" (by decide),
    C10_importance_nonneg.2.2.2 emptyState "m" none none none "f" "-0.7" 3
      ⟨_parse_importance "-0.7", 1, 3⟩ (by rfl)⟩

/-! ### Frame lemmas and dispatch helpers -/

/-- Writing metadata never touches the collection, the history, or the clock. -/
theorem update_metadata_frame (s : State) (id : String) (imp : Option ℚ)
    (ac : Option ℤ) (now : ℚ) :
    (_update_metadata s id imp ac now).records = s.records
      ∧ (_update_metadata s id imp ac now).history = s.history
      ∧ (_update_metadata s id imp ac now).clock = s.clock := by
  unfold _update_metadata
  cases imp <;> cases ac <;> exact ⟨rfl, rfl, rfl⟩

/-- Logging history never touches the collection or the metadata. -/
theorem log_history_frame (s : State) (mid act dat : String) :
    (_log_history s mid act dat).records = s.records
      ∧ (_log_history s mid act dat).metadata = s.metadata := ⟨rfl, rfl⟩

/-- Deleting from the collection never touches metadata, history or clock. -/
theorem delete_collection_frame (s : State) (mid : String) :
    (_delete_memory_from_collection s mid).metadata = s.metadata
      ∧ (_delete_memory_from_collection s mid).history = s.history
      ∧ (_delete_memory_from_collection s mid).clock = s.clock := ⟨rfl, rfl, rfl⟩

/-- Strength only reads the metadata table. -/
theorem calculate_strength_congr (s s' : State) (id : String) (now : ℚ)
    (h : s.metadata = s'.metadata) :
    calculate_strength s id now = calculate_strength s' id now := by
  unfold calculate_strength getMeta
  rw [h]

/-- Splitting a separator-free string yields a single piece. -/
theorem splitList_no_sep (sep : Char) (cs : List Char) (h : sep ∉ cs) :
    splitList sep cs = [cs] := by
  induction cs with
  | nil => rfl
  | cons c rest ih =>
      have hc : ¬ c = sep := fun hc => h (hc ▸ List.mem_cons_self c rest)
      have hrest : sep ∉ rest := fun hm => h (List.mem_cons_of_mem c hm)
      simp [splitList, hc, ih hrest]

/-- Splitting at the first separator after a separator-free run peels off
that run. -/
theorem splitList_sep_append (sep : Char) (pre cs : List Char) (h : sep ∉ pre) :
    splitList sep (pre ++ sep :: cs) = pre :: splitList sep cs := by
  induction pre with
  | nil => simp [splitList]
  | cons c rest ih =>
      have hc : ¬ c = sep := fun hc => h (hc ▸ List.mem_cons_self c rest)
      have hrest : sep ∉ rest := fun hm => h (List.mem_cons_of_mem c hm)
      simp [splitList, hc, ih hrest]

/-- Python `"UPDATE:<id>".split(":")` for a colon-free id. -/
theorem pySplit_update_tag (id : String) (hid : ':' ∉ id.data) :
    pySplit ':' ("UPDATE:" ++ id) = ["UPDATE", id] := by
  have hdata : ("UPDATE:" ++ id).data = "UPDATE".data ++ ':' :: id.data := rfl
  unfold pySplit
  rw [hdata, splitList_sep_append ':' "UPDATE".data id.data (by decide) ,
      splitList_no_sep ':' id.data hid]
  rfl

/-- Python `"DELETE:<id>".split(":")` for a colon-free id. -/
theorem pySplit_delete_tag (id : String) (hid : ':' ∉ id.data) :
    pySplit ':' ("DELETE:" ++ id) = ["DELETE", id] := by
  have hdata : ("DELETE:" ++ id).data = "DELETE".data ++ ':' :: id.data := rfl
  unfold pySplit
  rw [hdata, splitList_sep_append ':' "DELETE".data id.data (by decide) ,
      splitList_no_sep ':' id.data hid]
  rfl

/-- A string starting with the `UPDATE:` tag is never the literal `ADD`. -/
theorem update_tag_ne_add (id : String) : ("UPDATE:" ++ id) ≠ "ADD" := by
  intro h
  have hlen := congrArg String.length h
  rw [String.length_append] at hlen
  have h7 : "UPDATE:".length = 7 := rfl
  have h3 : "ADD".length = 3 := rfl
  rw [h7, h3] at hlen
  omega

/-- A string starting with the `DELETE:` tag is never the literal `ADD`. -/
theorem delete_tag_ne_add (id : String) : ("DELETE:" ++ id) ≠ "ADD" := by
  intro h
  have hlen := congrArg String.length h
  rw [String.length_append] at hlen
  have h7 : "DELETE:".length = 7 := rfl
  have h3 : "ADD".length = 3 := rfl
  rw [h7, h3] at hlen
  omega

/-- The `UPDATE:` tag is recognised by the dispatch test. -/
theorem startsWith_update_tag (id : String) :
    startsWith ("UPDATE:" ++ id) "UPDATE:" = true := by
  unfold startsWith
  rw [String.data_append]
  simp

/-- The `DELETE:` tag is recognised by the dispatch test. -/
theorem startsWith_delete_tag (id : String) :
    startsWith ("DELETE:" ++ id) "DELETE:" = true := by
  unfold startsWith
  rw [String.data_append]
  simp

/-- A `DELETE:`-tagged string does not pass the `UPDATE:` test. -/
theorem delete_tag_not_update (id : String) :
    startsWith ("DELETE:" ++ id) "UPDATE:" = false := rfl

/-- A record update targeting an id no live record carries leaves the
collection unchanged. -/
theorem update_collection_missing (s : State) (id data : String)
    (h : ∀ rec ∈ s.records, rec.id ≠ id) :
    _update_memory_in_collection s id data = s := by
  unfold _update_memory_in_collection
  have : s.records.map
      (fun r => if r.id = id then { r with document := data } else r) = s.records := by
    rw [List.map_congr_left (fun r hr => if_neg (h r hr)), List.map_id']
  rw [this]

/-- A collection delete targeting an id no live record carries leaves the
collection unchanged. -/
theorem delete_collection_missing (s : State) (id : String)
    (h : ∀ rec ∈ s.records, rec.id ≠ id) :
    _delete_memory_from_collection s id = s := by
  unfold _delete_memory_from_collection
  have : s.records.filter (fun r => r.id ≠ id) = s.records :=
    List.filter_eq_self.mpr (fun r hr => by simpa using h r hr)
  rw [this]

/-- C3 counterexample: decision `UPDATE:missing-id` against the empty store
inserts no record and appends one UPDATE history entry and zero ADD
entries, instead of behaving as an ADD. -/
theorem C3_counterexample :
    (_infer_and_add emptyState "X" none none none "UPDATE:missing-id" "fresh" "0.5" 0).1.records = []
      ∧ (_infer_and_add emptyState "X" none none none "UPDATE:missing-id" "fresh" "0.5" 0).1.history.map
          HistoryEntry.action = ["UPDATE"] :=
  ⟨rfl, rfl⟩

/-- C3 (amended): when the decision is `UPDATE:<id>` for an id that is not a
live record, the operation does not fall back to ADD: it takes the update
path unconditionally, leaving the record store and the metadata store
unchanged, inserting no record, printing no warning, and appending exactly
one UPDATE history entry (payload = the new content) against the missing
id — in particular zero ADD entries. -/
theorem C3_update_missing_id (s : State) (data : String)
    (u a r : Option String) (freshId importanceText : String) (now : ℚ)
    (id : String) (hid : ':' ∉ id.data)
    (hlive : ∀ rec ∈ s.records, rec.id ≠ id) :
    _infer_and_add s data u a r ("UPDATE:" ++ id) freshId importanceText now
      = ({ s with
            history := s.history ++ [⟨id, "UPDATE", data, s.clock⟩],
            clock := s.clock + 1 }, []) := by
  unfold _infer_and_add
  rw [if_neg (update_tag_ne_add id), if_pos (startsWith_update_tag id),
      pySplit_update_tag id hid]
  show (update s id data, []) = _
  unfold update
  rw [update_collection_missing s id data hlive]
  rfl

/-- Witness for C3 (amended): the missing id "m1" against the empty store. -/
theorem C3_update_missing_id_witness :
    _infer_and_add emptyState "X" none none none ("UPDATE:" ++ "m1") "fresh" "0.5" 0
      = ({ emptyState with history := [⟨"m1", "UPDATE", "X", 0⟩], clock := 1 }, []) :=
  C3_update_missing_id emptyState "X" none none none "fresh" "0.5" 0 "m1"
    (by decide) (by simp [emptyState])

/-- C4 counterexample: decision `DELETE:missing-id` against the empty store
appends one DELETE history entry for the missing id, instead of appending
no history entry. -/
theorem C4_counterexample :
    (_infer_and_add emptyState "X" none none none "DELETE:missing-id" "fresh" "0.5" 0).1.records = []
      ∧ (_infer_and_add emptyState "X" none none none "DELETE:missing-id" "fresh" "0.5" 0).1.history.map
          HistoryEntry.action = ["DELETE"] :=
  ⟨rfl, rfl⟩

/-- C4 (amended): when the decision is `DELETE:<id>` for an id that is not a
live record, the record store and metadata store are unchanged, but the
operation is not history-silent: it still appends exactly one DELETE
history entry with empty payload for the missing id (the delete path logs
for live and non-live targets alike). -/
theorem C4_delete_missing_id (s : State) (data : String)
    (u a r : Option String) (freshId importanceText : String) (now : ℚ)
    (id : String) (hid : ':' ∉ id.data)
    (hlive : ∀ rec ∈ s.records, rec.id ≠ id) :
    _infer_and_add s data u a r ("DELETE:" ++ id) freshId importanceText now
      = ({ s with
            history := s.history ++ [⟨id, "DELETE", "", s.clock⟩],
            clock := s.clock + 1 }, []) := by
  unfold _infer_and_add
  rw [if_neg (delete_tag_ne_add id),
      if_neg (by rw [delete_tag_not_update id]; exact Bool.false_ne_true),
      if_pos (startsWith_delete_tag id), pySplit_delete_tag id hid]
  show (delete s id, []) = _
  unfold delete
  rw [delete_collection_missing s id hlive]
  rfl

/-- Witness for C4 (amended): the missing id "m1" against the empty store. -/
theorem C4_delete_missing_id_witness :
    _infer_and_add emptyState "X" none none none ("DELETE:" ++ "m1") "fresh" "0.5" 0
      = ({ emptyState with history := [⟨"m1", "DELETE", "", 0⟩], clock := 1 }, []) :=
  C4_delete_missing_id emptyState "X" none none none "fresh" "0.5" 0 "m1"
    (by decide) (by simp [emptyState])

/-- C9: a consolidation run whose decision string is unrecognized produces
exactly the same record store, metadata store and history log as a run
deciding "ADD" on the same content (with the same fresh id and importance
grade), and additionally emits the defaulting warning line, so the
fallback is observable, not silent. -/
theorem C9_unrecognized_same_as_add (s : State) (data : String)
    (u a r : Option String) (freshId importanceText : String) (now : ℚ)
    (d : String) (h1 : d ≠ "ADD")
    (h2 : startsWith d "UPDATE:" = false) (h3 : startsWith d "DELETE:" = false) :
    (_infer_and_add s data u a r d freshId importanceText now).1
        = (_infer_and_add s data u a r "ADD" freshId importanceText now).1
      ∧ (_infer_and_add s data u a r d freshId importanceText now).2
        = [unrecognisedMsg d] := by
  unfold _infer_and_add
  rw [if_neg h1, if_neg (by rw [h2]; exact Bool.false_ne_true),
      if_neg (by rw [h3]; exact Bool.false_ne_true), if_pos rfl]
  exact ⟨rfl, rfl⟩

/-- Witness for C9: the unrecognized decision "banana". -/
theorem C9_unrecognized_same_as_add_witness :
    (_infer_and_add emptyState "X" none none none "banana" "f1" "0.9" 0).1
        = (_infer_and_add emptyState "X" none none none "ADD" "f1" "0.9" 0).1
      ∧ (_infer_and_add emptyState "X" none none none "banana" "f1" "0.9" 0).2
        = [unrecognisedMsg "banana"] :=
  C9_unrecognized_same_as_add emptyState "X" none none none "f1" "0.9" 0 "banana"
    (by decide) rfl rfl

/-- C7 counterexample: reading a live record that has no metadata entry
leaves the metadata store empty — no entry with access_count 1 is created
(the read itself succeeds). -/
theorem C7_counterexample :
    (get ⟨[⟨"a", "doc", none, none, none⟩], [], [], 0⟩ "a" 0).2.metadata = []
      ∧ (get ⟨[⟨"a", "doc", none, none, none⟩], [], [], 0⟩ "a" 0).1
        = some ⟨"a", "doc", none, none, none⟩ :=
  ⟨rfl, rfl⟩

/-- C7 (amended): a read access on a live record with no prior metadata
entry does not crash and performs no write at all — the state comes back
unchanged and no metadata entry is created; for a live record with an
existing entry, the read increments access_count by exactly 1 and sets
last_accessed to now, leaving records and history unchanged. -/
theorem C7_get_bump_access (s : State) (id : String) (now : ℚ)
    (rec : MemoryRecord) (hrec : _get_memory_from_collection s id = some rec) :
    (getMeta s id = none → get s id now = (some rec, s))
    ∧ (∀ e : MetaEntry, getMeta s id = some e →
        (get s id now).1 = some rec
        ∧ getMeta (get s id now).2 id = some ⟨e.importance, e.access_count + 1, now⟩
        ∧ (get s id now).2.records = s.records
        ∧ (get s id now).2.history = s.history) := by
  constructor
  · intro hmeta
    unfold get
    rw [hrec, hmeta]
  · intro e hmeta
    unfold get
    rw [hrec, hmeta]
    refine ⟨rfl, ?_, ?_, ?_⟩
    · rw [getMeta_bump, hmeta]
      rfl
    · exact (update_metadata_frame s id none (some (e.access_count + 1)) now).1
    · exact (update_metadata_frame s id none (some (e.access_count + 1)) now).2.1

/-- Witness for C7 (amended): a store with record "b", without and with a
metadata entry. -/
theorem C7_get_bump_access_witness :
    get ⟨[⟨"b", "d", none, none, none⟩], [], [], 0⟩ "b" 1
        = (some ⟨"b", "d", none, none, none⟩, ⟨[⟨"b", "d", none, none, none⟩], [], [], 0⟩)
      ∧ getMeta (get ⟨[⟨"b", "d", none, none, none⟩], [("b", ⟨2, 3, 0⟩)], [], 0⟩ "b" 1).2 "b"
        = some ⟨2, 3 + 1, 1⟩ :=
  ⟨(C7_get_bump_access ⟨[⟨"b", "d", none, none, none⟩], [], [], 0⟩ "b" 1
      ⟨"b", "d", none, none, none⟩ rfl).1 rfl,
    ((C7_get_bump_access ⟨[⟨"b", "d", none, none, none⟩], [("b", ⟨2, 3, 0⟩)], [], 0⟩ "b" 1
      ⟨"b", "d", none, none, none⟩ rfl).2 ⟨2, 3, 0⟩ rfl).2.1⟩

/-- The decay sweep never touches the metadata table. -/
theorem decayLoop_metadata (ms : List MemoryRecord) (s : State) (th now : ℚ) :
    (decayLoop s ms th now).metadata = s.metadata := by
  induction ms generalizing s with
  | nil => rfl
  | cons m rest ih =>
      unfold decayLoop
      by_cases hc : calculate_strength s m.id now < th
      · rw [if_pos hc, ih]
        rfl
      · rw [if_neg hc, ih]

/-- The decay sweep keeps exactly the records that are not both in the
snapshot and strictly below the threshold. -/
theorem decayLoop_records (ms : List MemoryRecord) (s : State) (th now : ℚ) :
    (decayLoop s ms th now).records
      = s.records.filter (fun rec =>
          ¬ (rec.id ∈ ms.map MemoryRecord.id
              ∧ calculate_strength s rec.id now < th)) := by
  induction ms generalizing s with
  | nil => simp [decayLoop]
  | cons m rest ih =>
      unfold decayLoop
      by_cases hc : calculate_strength s m.id now < th
      · rw [if_pos hc, ih]
        have hstr : ∀ x : String, calculate_strength
            (_log_history (_delete_memory_from_collection s m.id) m.id "DECAY" "") x now
              = calculate_strength s x now := fun x => rfl
        simp only [hstr]
        show (s.records.filter (fun r => r.id ≠ m.id)).filter _ = _
        rw [List.filter_filter]
        refine List.filter_congr ?_
        intro a _
        by_cases hid : a.id = m.id
        · simp [hid, hc]
        · simp [hid]
      · rw [if_neg hc, ih]
        refine List.filter_congr ?_
        intro a _
        by_cases hid : a.id = m.id
        · simp [hid, hc]
        · simp [hid]

/-- The decay sweep appends one DECAY entry with empty payload per removed
snapshot record, in snapshot order. -/
theorem decayLoop_history (ms : List MemoryRecord) (s : State) (th now : ℚ) :
    (decayLoop s ms th now).history.map (fun e => (e.memory_id, e.action, e.data))
      = s.history.map (fun e => (e.memory_id, e.action, e.data))
        ++ (ms.filter (fun m => calculate_strength s m.id now < th)).map
            (fun m => (m.id, "DECAY", "")) := by
  induction ms generalizing s with
  | nil => simp [decayLoop]
  | cons m rest ih =>
      unfold decayLoop
      by_cases hc : calculate_strength s m.id now < th
      · rw [if_pos hc, ih]
        have hstr : ∀ x : String, calculate_strength
            (_log_history (_delete_memory_from_collection s m.id) m.id "DECAY" "") x now
              = calculate_strength s x now := fun x => rfl
        simp only [hstr]
        simp [_log_history, _delete_memory_from_collection, List.filter_cons, hc,
          List.append_assoc]
      · rw [if_neg hc, ih]
        simp [List.filter_cons, hc]

/-- C2: the decay sweep snapshots all live records with no scope filter,
removes from the record store exactly those whose strength is strictly
below the threshold, appends for each removed record one DECAY history
entry with empty payload (in snapshot order), never touches the metadata
table; and with threshold 0 it removes no record whose metadata has
strictly positive importance, a non-negative access count and a last
access no later than now. -/
theorem C2_decay_characterization :
    (∀ s : State, _get_all_memories_from_collection s none none none = s.records)
    ∧ (∀ (s : State) (th now : ℚ),
        (decay_memories s th now).records
            = s.records.filter (fun rec => ¬ calculate_strength s rec.id now < th)
          ∧ (decay_memories s th now).history.map (fun e => (e.memory_id, e.action, e.data))
            = s.history.map (fun e => (e.memory_id, e.action, e.data))
              ++ (s.records.filter (fun rec => calculate_strength s rec.id now < th)).map
                  (fun rec => (rec.id, "DECAY", ""))
          ∧ (decay_memories s th now).metadata = s.metadata)
    ∧ (∀ (s : State) (now : ℚ) (rec : MemoryRecord) (e : MetaEntry),
        rec ∈ s.records → getMeta s rec.id = some e →
        0 < e.importance → 0 ≤ e.access_count → e.last_accessed ≤ now →
        rec ∈ (decay_memories s 0 now).records) := by
  have hall : ∀ s : State, _get_all_memories_from_collection s none none none = s.records := by
    intro s
    unfold _get_all_memories_from_collection
    simp [scopeMatch]
  have hrec : ∀ (s : State) (th now : ℚ),
      (decay_memories s th now).records
        = s.records.filter (fun rec => ¬ calculate_strength s rec.id now < th) := by
    intro s th now
    unfold decay_memories
    rw [hall, decayLoop_records]
    refine List.filter_congr ?_
    intro a ha
    simp [List.mem_map_of_mem MemoryRecord.id ha]
  refine ⟨hall, fun s th now => ⟨hrec s th now, ?_, ?_⟩, ?_⟩
  · unfold decay_memories
    rw [hall, decayLoop_history]
  · unfold decay_memories
    rw [hall, decayLoop_metadata]
  · intro s now rec e hmem hmeta himp hac hlast
    have hstr0 : 0 ≤ calculate_strength s rec.id now := by
      have heq : calculate_strength s rec.id now
          = e.importance * (1 + (e.access_count : ℚ))
              * (1 / (1 + (now - e.last_accessed))) := by
        simp [calculate_strength, hmeta]
      rw [heq]
      have h1 : (0 : ℚ) ≤ 1 + (e.access_count : ℚ) := by
        have : (0 : ℚ) ≤ (e.access_count : ℚ) := by exact_mod_cast hac
        linarith
      have h2 : (0 : ℚ) ≤ 1 / (1 + (now - e.last_accessed)) := by
        have h3 : (0 : ℚ) < 1 + (now - e.last_accessed) := by linarith
        positivity
      exact mul_nonneg (mul_nonneg (le_of_lt himp) h1) h2
    rw [hrec s 0 now]
    refine List.mem_filter.mpr ⟨hmem, ?_⟩
    have hnot : ¬ calculate_strength s rec.id now < 0 := not_lt.mpr hstr0
    simp [hnot]

/-- Witness for C2: a one-record store whose record has importance 1. -/
theorem C2_decay_characterization_witness :
    (⟨"a", "d", none, none, none⟩ : MemoryRecord)
      ∈ (decay_memories ⟨[⟨"a", "d", none, none, none⟩], [("a", ⟨1, 1, 0⟩)], [], 0⟩ 0 0).records :=
  C2_decay_characterization.2.2 ⟨[⟨"a", "d", none, none, none⟩], [("a", ⟨1, 1, 0⟩)], [], 0⟩ 0
    ⟨"a", "d", none, none, none⟩ ⟨1, 1, 0⟩ (by simp) rfl (by norm_num) (by norm_num)
    (by norm_num)

/-- Each mutating API call appends exactly one history row, under the next
rowid. -/
theorem applyOp_history (s : State) (op : Op) :
    (applyOp s op).history
      = s.history ++ [⟨opTarget op, opAction op, opData op, s.clock⟩] := by
  cases op <;> rfl

/-- The per-id slice of the raw history table after a run of mutating calls,
projected to (action, payload): the table grows by one row per call, so the
slice lists the id's mutations in occurrence order. -/
theorem applyOps_history_filter (ops : List Op) (s : State) (id : String) :
    ((applyOps s ops).history.filter (fun e => e.memory_id = id)).map
        (fun e => (e.action, e.data))
      = (s.history.filter (fun e => e.memory_id = id)).map (fun e => (e.action, e.data))
        ++ ops.filterMap (opEntry id) := by
  induction ops generalizing s with
  | nil => simp [applyOps]
  | cons op ops ih =>
      rw [show applyOps s (op :: ops) = applyOps (applyOp s op) ops from rfl,
          ih (applyOp s op), applyOp_history, List.filter_append, List.map_append,
          List.filterMap_cons]
      unfold opEntry
      by_cases ht : opTarget op = id <;> simp [ht, List.append_assoc]

/-- A readback that is a permutation of rows with strictly increasing
timestamp keys is itself strictly sorted by the key (ties are impossible,
so the non-strict sort sharpens to a strict one). -/
theorem readback_pairwise_strict (τ : ℕ → ℕ) (l out : List HistoryEntry)
    (hperm : List.Perm out l)
    (hl : l.Pairwise (fun e f => τ e.rowid < τ f.rowid))
    (hout : out.Pairwise (fun e f => τ e.rowid ≤ τ f.rowid)) :
    out.Pairwise (fun e f => τ e.rowid < τ f.rowid) := by
  have hlnodup : (l.map (fun e => τ e.rowid)).Nodup :=
    (List.pairwise_map.mpr hl).imp ne_of_lt
  have houtnodup : (out.map (fun e => τ e.rowid)).Nodup :=
    ((hperm.map (fun e => τ e.rowid)).nodup_iff).mpr hlnodup
  have hkeys : (out.map (fun e => τ e.rowid)).Pairwise (· < ·) :=
    ((List.pairwise_map.mpr hout).and houtnodup).imp
      (fun h => lt_of_le_of_ne h.1 h.2)
  exact List.pairwise_map.mp hkeys

/-- When the rows' timestamp keys strictly increase, the sorted readback is
unique: it is the row list itself. -/
theorem readback_unique (τ : ℕ → ℕ) (l out : List HistoryEntry)
    (hperm : List.Perm out l)
    (hl : l.Pairwise (fun e f => τ e.rowid < τ f.rowid))
    (hout : out.Pairwise (fun e f => τ e.rowid ≤ τ f.rowid)) :
    out = l := by
  haveI : IsAntisymm HistoryEntry (fun e f => τ e.rowid < τ f.rowid) :=
    ⟨fun a b hab hba => absurd (lt_trans hab hba) (lt_irrefl _)⟩
  exact List.eq_of_perm_of_sorted hperm
    (readback_pairwise_strict τ l out hperm hl hout) hl

/-- C6 counterexample: insert then update of id "m1" within the same
wall-clock second (both rows stamped with the same `CURRENT_TIMESTAMP`
value, here `τ = 0`): the reversed list is also a valid
`ORDER BY timestamp ASC` result, and its action/payload trail is UPDATE
then ADD — not the order the mutations occurred — so the exact-order claim
fails. -/
theorem C6_counterexample :
    Monotone (fun _ : ℕ => (0 : ℕ))
    ∧ sqlHistoryReadback (fun _ => 0)
        (applyOps emptyState
          [Op.addOp "x" none none none "m1" "0.5" 0, Op.updateOp "m1" "y"]) "m1"
        [⟨"m1", "UPDATE", "y", 1⟩, ⟨"m1", "ADD", "x", 0⟩]
    ∧ [(⟨"m1", "UPDATE", "y", 1⟩ : HistoryEntry), ⟨"m1", "ADD", "x", 0⟩].map
        (fun e => (e.action, e.data)) ≠ [("ADD", "x"), ("UPDATE", "y")] := by
  refine ⟨monotone_const, ⟨?_, ?_⟩, by decide⟩
  · exact List.Perm.swap (⟨"m1", "ADD", "x", 0⟩ : HistoryEntry)
      (⟨"m1", "UPDATE", "y", 1⟩ : HistoryEntry) []
  · exact List.Pairwise.cons (fun f _ => Nat.le_refl 0) (List.pairwise_singleton _ _)

/-- C6 (amended): any result the history query may return for an id
contains exactly one entry per mutation of that id — its action/payload
projection is a permutation of the id's mutation log taken in occurrence
order — and a readback for an id with no history is the empty sequence,
not an error; the exact occurrence order itself is guaranteed precisely
when the id's rows carry strictly increasing timestamp stamps (mutations
in distinct clock seconds) — rows stamped in the same second tie in
`ORDER BY timestamp ASC` and may come back in either order. -/
theorem C6_history_readback :
    (∀ (τ : ℕ → ℕ) (s : State) (ops : List Op) (id : String)
        (out : List HistoryEntry),
        sqlHistoryReadback τ (applyOps s ops) id out →
          List.Perm (out.map (fun e => (e.action, e.data)))
            ((s.history.filter (fun e => e.memory_id = id)).map
                (fun e => (e.action, e.data))
              ++ ops.filterMap (opEntry id)))
    ∧ (∀ (τ : ℕ → ℕ) (s : State) (ops : List Op) (id : String)
        (out : List HistoryEntry),
        sqlHistoryReadback τ (applyOps s ops) id out →
        ((applyOps s ops).history.filter (fun e => e.memory_id = id)).Pairwise
            (fun e f => τ e.rowid < τ f.rowid) →
          out.map (fun e => (e.action, e.data))
            = (s.history.filter (fun e => e.memory_id = id)).map
                (fun e => (e.action, e.data))
              ++ ops.filterMap (opEntry id))
    ∧ (∀ (τ : ℕ → ℕ) (id : String) (out : List HistoryEntry),
        sqlHistoryReadback τ emptyState id out → out = []) := by
  refine ⟨?_, ?_, ?_⟩
  · intro τ s ops id out h
    have hperm := h.1.map (fun e => (e.action, e.data))
    rw [applyOps_history_filter] at hperm
    exact hperm
  · intro τ s ops id out h hstrict
    rw [readback_unique τ _ out h.1 hstrict h.2, applyOps_history_filter]
  · intro τ id out h
    exact h.1.eq_nil

/-- Witness for C6 (amended): insert, update, delete of id "m1", stamped in
three distinct seconds, come back exactly in occurrence order. -/
theorem C6_history_readback_witness :
    sqlHistoryReadback (fun n => n)
        (applyOps emptyState
          [Op.addOp "x" none none none "m1" "0.5" 0,
           Op.updateOp "m1" "y", Op.deleteOp "m1"]) "m1"
        [⟨"m1", "ADD", "x", 0⟩, ⟨"m1", "UPDATE", "y", 1⟩, ⟨"m1", "DELETE", "", 2⟩]
      ∧ [(⟨"m1", "ADD", "x", 0⟩ : HistoryEntry), ⟨"m1", "UPDATE", "y", 1⟩,
          ⟨"m1", "DELETE", "", 2⟩].map (fun e => (e.action, e.data))
        = [("ADD", "x"), ("UPDATE", "y"), ("DELETE", "")] :=
  ⟨⟨List.Perm.refl _, by decide⟩,
    C6_history_readback.2.1 (fun n => n) emptyState
      [Op.addOp "x" none none none "m1" "0.5" 0,
       Op.updateOp "m1" "y", Op.deleteOp "m1"] "m1"
      [⟨"m1", "ADD", "x", 0⟩, ⟨"m1", "UPDATE", "y", 1⟩, ⟨"m1", "DELETE", "", 2⟩]
      ⟨List.Perm.refl _, by decide⟩ (by decide)⟩

end MemAgent
